import Mathlib

/-!
Verification of the install workflow of `install_copilot_agents.py`
(github-copilot-specialized-agents).

The program is a sequential installer: validate the target directory,
check for a conflicting prior installation, optionally snapshot existing
files, download and extract a remote bundle, copy selected files into
place, clean up the temporary area, rolling back from the snapshot on an
install failure.

We embed the filesystem state the program touches as a record `FS`
(marker file `.github/copilot-instructions.md`, hidden directory
`.copilot`, `.github` directory, timestamped backup directories), the
transient state of the installer as `St`, and every method of
`CopilotAgentInstaller` as a Lean function on that state.  Python
exceptions raised by the filesystem primitives (`mkdir`, `copy2`,
`copytree`, `rmtree`, `mkdtemp`, `urlretrieve`, zip extraction) are
modelled by a fault record `Faults`: a primitive whose flag is set raises
at that program point, the enclosing `try`/`except` catches it, and all
mutations made before that point are retained (primitives themselves are
atomic: they either fully apply or raise without effect).
-/

set_option autoImplicit false

namespace Installer

/-- Immediate regular files of one directory: association list of
name/content pairs (models the wholesale-copied `.copilot` tree). -/
abbrev Dir := List (String × String)

/-- First entry with the given name. -/
def findEntry (d : Dir) (k : String) : Option String :=
  match d with
  | [] => none
  | (k1, v) :: rest => if k1 = k then some v else findEntry rest k

/-- Write a file into a directory: overwrite in place, or append. -/
def setEntry (d : Dir) (k v : String) : Dir :=
  match d with
  | [] => [(k, v)]
  | (k1, v1) :: rest => if k1 = k then (k, v) :: rest else (k1, v1) :: setEntry rest k v

/-- One top-level directory of the extracted archive: the three items
`install_files` looks for inside it. -/
structure SrcDir where
  instrFile : Option String
  copilot : Option Dir
  readme : Option String
deriving DecidableEq

/-- Contents of one timestamped backup directory
`.copilot_backup_<ts>`: the copied marker file and `.copilot` tree. -/
structure BackupSnap where
  instrFile : Option String
  copilot : Option Dir
deriving DecidableEq

/-- Empty backup directory, as `mkdir` creates it. -/
def emptySnap : BackupSnap := { instrFile := none, copilot := none }

/-- Lookup of a backup directory by name. -/
def findSnap (l : List (String × BackupSnap)) (k : String) : Option BackupSnap :=
  match l with
  | [] => none
  | (k1, v) :: rest => if k1 = k then some v else findSnap rest k

/-- Create-or-overwrite of a backup directory entry. -/
def setSnap (l : List (String × BackupSnap)) (k : String) (v : BackupSnap) :
    List (String × BackupSnap) :=
  match l with
  | [] => [(k, v)]
  | (k1, v1) :: rest => if k1 = k then (k, v) :: rest else (k1, v1) :: setSnap rest k v

/-- The part of the filesystem the installer reads or writes, rooted at
the target directory. -/
structure FS where
  targetExists : Bool
  targetIsDir : Bool
  /-- whether `.github` exists -/
  githubDir : Bool
  /-- content of `.github/copilot-instructions.md`, when present -/
  marker : Option String
  /-- content of `.copilot`, when present -/
  copilot : Option Dir
  /-- the `.copilot_backup_*` directories at the target root -/
  backupEntries : List (String × BackupSnap)
deriving DecidableEq

/-- The extracted temporary area: its top-level directories in
iteration order (the downloaded `repo.zip` file is not a directory and
is never consulted). -/
structure TempState where
  dirs : List SrcDir
deriving DecidableEq

/-- Installer state: the filesystem plus the mutable object fields
`self.temp_dir` / `self.backup_dir`, and event flags. -/
structure St where
  fs : FS
  temp : Option TempState
  backupDir : Option String
  cleanupCalled : Bool
  rollbackCalled : Bool
deriving DecidableEq

/-- Constructor arguments of `CopilotAgentInstaller`. -/
structure Config where
  githubUrl : String
  force : Bool
  backup : Bool

/-- Exception injection: a set flag makes the corresponding filesystem
or network primitive raise at its program point. -/
structure Faults where
  backupMkdir : Bool
  backupCopyFile : Bool
  backupCopyTree : Bool
  dlMkdtemp : Bool
  dlRetrieve : Bool
  dlExtract : Bool
  instGithubMkdir : Bool
  instCopyFile : Bool
  instRmtree : Bool
  instCopyTree : Bool
  instReadmeMkdir : Bool
  instReadmeCopy : Bool
  rbCopyFile : Bool
  rbRmtree : Bool
  rbCopyTree : Bool
  cleanupRmtree : Bool

/-- The all-clear fault assignment: no primitive raises. -/
def noFaults : Faults :=
  { backupMkdir := false, backupCopyFile := false, backupCopyTree := false,
    dlMkdtemp := false, dlRetrieve := false, dlExtract := false,
    instGithubMkdir := false, instCopyFile := false, instRmtree := false,
    instCopyTree := false, instReadmeMkdir := false, instReadmeCopy := false,
    rbCopyFile := false, rbRmtree := false, rbCopyTree := false,
    cleanupRmtree := false }

/-- Model of `CopilotAgentInstaller.validate_target`: the target must exist and
be a directory. -/
def validate_target (fs : FS) : Bool :=
  fs.targetExists && fs.targetIsDir

/-- Model of `CopilotAgentInstaller.check_existing_installation`: blocked when
the marker file or the hidden directory exists, unless `--force`. -/
def check_existing_installation (cfg : Config) (fs : FS) : Bool :=
  if fs.marker.isSome || fs.copilot.isSome then cfg.force else true

/-- Name of the timestamped backup directory. -/
def backupName (ts : String) : String := ".copilot_backup_" ++ ts

/-- Body of the `shutil.copy2` call of `create_backup`, copying the marker file into the
backup directory (skipped when the marker is absent).  Returns the
success flag, the contents of the backup directory after the step, and the
new state. -/
def backupMarkerStep (f : Faults) (name : String) (snap : BackupSnap) (st : St) :
    Bool × BackupSnap × St :=
  match st.fs.marker with
  | some m =>
    if f.backupCopyFile then (false, snap, st)
    else
      let snap1 : BackupSnap := { snap with instrFile := some m }
      (true, snap1,
        { st with fs := { st.fs with backupEntries := setSnap st.fs.backupEntries name snap1 } })
  | none => (true, snap, st)

/-- Body of the `shutil.copytree` call of `create_backup`, copying `.copilot` into the
backup directory (skipped when `.copilot` is absent; `copytree` raises
when its destination already exists). -/
def backupCopilotStep (f : Faults) (name : String) (snap : BackupSnap) (st : St) :
    Bool × St :=
  match st.fs.copilot with
  | some d =>
    if snap.copilot.isSome then (false, st)
    else if f.backupCopyTree then (false, st)
    else
      let snap1 : BackupSnap := { snap with copilot := some d }
      (true,
        { st with fs := { st.fs with backupEntries := setSnap st.fs.backupEntries name snap1 } })
  | none => (true, st)

/-- Model of `CopilotAgentInstaller.create_backup`.  When backup is disabled it
returns success immediately.  Otherwise it records `self.backup_dir`,
creates the timestamped directory (`mkdir(exist_ok=True)`), and copies
the marker file and the `.copilot` tree into it when they exist; any
raise is caught and turned into failure, keeping earlier mutations. -/
def create_backup (cfg : Config) (f : Faults) (ts : String) (st : St) : Bool × St :=
  if cfg.backup = false then (true, st)
  else
    let name := backupName ts
    let st1 : St := { st with backupDir := some name }
    if f.backupMkdir then (false, st1)
    else
      let snap0 := (findSnap st1.fs.backupEntries name).getD emptySnap
      let st2 : St :=
        { st1 with fs := { st1.fs with backupEntries := setSnap st1.fs.backupEntries name snap0 } }
      let r1 := backupMarkerStep f name snap0 st2
      if r1.1 = false then (false, r1.2.2)
      else backupCopilotStep f name r1.2.1 r1.2.2

/-- Python `str.rstrip('/')` on the character list. -/
def rstripSlashChars (s : List Char) : List Char :=
  (s.reverse.dropWhile (fun c => c = '/')).reverse

/-- Python `str.split(sep)` for a one-character separator. -/
def splitOnChar (sep : Char) : List Char → List (List Char)
  | [] => [[]]
  | c :: cs =>
    let r := splitOnChar sep cs
    if c = sep then [] :: r
    else
      match r with
      | [] => [[c]]
      | h :: t => (c :: h) :: t

/-- Whether `pat` occurs at the start of `s`. -/
def listStartsWith : List Char → List Char → Bool
  | [], _ => true
  | _ :: _, [] => false
  | a :: as, b :: bs => a = b && listStartsWith as bs

/-- The Python substring test `pat in s`. -/
def listHasSub (pat : List Char) : List Char → Bool
  | [] => listStartsWith pat []
  | c :: cs => listStartsWith pat (c :: cs) || listHasSub pat cs

/-- The characters of `"github.com"`. -/
def githubChars : List Char := ['g', 'i', 't', 'h', 'u', 'b', '.', 'c', 'o', 'm']

/-- URL derivation of `download_from_github`: when the URL contains the
substring `github.com`, split the `/`-stripped URL on `/`, take the last
two segments as user and repo, and form the fixed-`main`-branch archive
URL (`none` models the `"URL do GitHub inválida"` failure when fewer
than two segments exist); any other URL is used verbatim. -/
def downloadUrl (url : String) : Option String :=
  if listHasSub githubChars url.data then
    match (splitOnChar '/' (rstripSlashChars url.data)).reverse with
    | repo :: user :: _ =>
      some (List.asString
        ("https://github.com/".data ++ user ++ "/".data ++ repo ++
          "/archive/refs/heads/main.zip".data))
    | _ => none
  else some url

/-- Model of `CopilotAgentInstaller.download_from_github`: create the temporary
directory (`mkdtemp`), derive the download URL, download (`urlretrieve`)
and extract the zip.  `archive` is the list of top-level directories the
served zip extracts to.  A raise at any point is caught and turned into
failure; the temporary directory, once created, stays behind for
`cleanup`. -/
def download_from_github (cfg : Config) (f : Faults) (archive : List SrcDir) (st : St) :
    Bool × St :=
  if f.dlMkdtemp then (false, st)
  else
    let st1 : St := { st with temp := some { dirs := [] } }
    match downloadUrl cfg.githubUrl with
    | none => (false, st1)
    | some _ =>
      if f.dlRetrieve then (false, st1)
      else if f.dlExtract then (false, st1)
      else (true, { st1 with temp := some { dirs := archive } })

/-- Marker block of `install_files`: if the first extracted directory has
`copilot-instructions.md`, `mkdir` `.github` (`exist_ok=True`) and
`copy2` the file over; otherwise only a warning is printed. -/
def installMarkerStep (f : Faults) (src : SrcDir) (st : St) : Bool × St :=
  match src.instrFile with
  | some c =>
    if f.instGithubMkdir then (false, st)
    else
      let st1 : St := { st with fs := { st.fs with githubDir := true } }
      if f.instCopyFile then (false, st1)
      else (true, { st1 with fs := { st1.fs with marker := some c } })
  | none => (true, st)

/-- Hidden-directory block of `install_files`: if the extracted directory has
`.copilot`, remove any existing destination (`rmtree`) and `copytree`
the source in its place; otherwise only a warning is printed. -/
def installCopilotStep (f : Faults) (src : SrcDir) (st : St) : Bool × St :=
  match src.copilot with
  | some d =>
    match st.fs.copilot with
    | some _ =>
      if f.instRmtree then (false, st)
      else
        let st1 : St := { st with fs := { st.fs with copilot := none } }
        if f.instCopyTree then (false, st1)
        else (true, { st1 with fs := { st1.fs with copilot := some d } })
    | none =>
      if f.instCopyTree then (false, st)
      else (true, { st with fs := { st.fs with copilot := some d } })
  | none => (true, st)

/-- README block of `install_files`: if the extracted directory has
`README.md`, `mkdir` `.copilot` (`exist_ok=True, parents=True`) and
`copy2` the readme into it. -/
def installReadmeStep (f : Faults) (src : SrcDir) (st : St) : Bool × St :=
  match src.readme with
  | some r =>
    if f.instReadmeMkdir then (false, st)
    else
      let base := st.fs.copilot.getD []
      let st1 : St := { st with fs := { st.fs with copilot := some base } }
      if f.instReadmeCopy then (false, st1)
      else (true, { st1 with fs := { st1.fs with copilot := some (setEntry base "README.md" r) } })
  | none => (true, st)

/-- Model of `CopilotAgentInstaller.install_files`: pick the first top-level
directory of the extracted area (hard failure when there is none), then
run the marker, `.copilot` and README blocks in order; a raise in any
block aborts the whole function with failure, keeping earlier writes. -/
def install_files (f : Faults) (st : St) : Bool × St :=
  match (match st.temp with | none => [] | some t => t.dirs) with
  | [] => (false, st)
  | src :: _ =>
    let r1 := installMarkerStep f src st
    if r1.1 = false then (false, r1.2)
    else
      let r2 := installCopilotStep f src r1.2
      if r2.1 = false then (false, r2.2)
      else installReadmeStep f src r2.2

/-- Model of `CopilotAgentInstaller.cleanup`: best-effort removal of the
temporary area when it exists; a raise is only a warning. -/
def cleanup (f : Faults) (st : St) : St :=
  let st0 : St := { st with cleanupCalled := true }
  match st0.temp with
  | none => st0
  | some _ => if f.cleanupRmtree then st0 else { st0 with temp := none }

/-- Hidden-directory block of `rollback`: when the backup directory holds a
`.copilot` copy, remove any existing destination and `copytree` the
copy back. -/
def rollbackCopilot (f : Faults) (snap : BackupSnap) (st : St) : St :=
  match snap.copilot with
  | none => st
  | some d =>
    match st.fs.copilot with
    | some _ =>
      if f.rbRmtree then st
      else
        let st1 : St := { st with fs := { st.fs with copilot := none } }
        if f.rbCopyTree then st1
        else { st1 with fs := { st1.fs with copilot := some d } }
    | none =>
      if f.rbCopyTree then st
      else { st with fs := { st.fs with copilot := some d } }

/-- Model of `CopilotAgentInstaller.rollback`: no-op when `self.backup_dir` is
unset or the directory does not exist; otherwise restore the marker file
(`copy2` into `.github`, which raises when `.github` is missing) and the
`.copilot` tree from the backup.  Best-effort: a raise aborts the rest
of the restoration but is swallowed. -/
def rollback (f : Faults) (st : St) : St :=
  let st0 : St := { st with rollbackCalled := true }
  match st0.backupDir with
  | none => st0
  | some name =>
    match findSnap st0.fs.backupEntries name with
    | none => st0
    | some snap =>
      match snap.instrFile with
      | some m =>
        if f.rbCopyFile || st0.fs.githubDir = false then st0
        else rollbackCopilot f snap { st0 with fs := { st0.fs with marker := some m } }
      | none => rollbackCopilot f snap st0

/-- Fresh installer state, as built by `main` before `install` runs. -/
def initSt (fs : FS) : St :=
  { fs := fs, temp := none, backupDir := none, cleanupCalled := false, rollbackCalled := false }

/-- Model of `CopilotAgentInstaller.install`: the full workflow.  Failures at
validation, conflict check or backup return immediately; a download
failure runs `cleanup`; an install failure runs `rollback` then
`cleanup`; success runs `cleanup`. -/
def install (cfg : Config) (f : Faults) (ts : String) (archive : List SrcDir) (st : St) :
    Bool × St :=
  if validate_target st.fs = false then (false, st)
  else if check_existing_installation cfg st.fs = false then (false, st)
  else
    let rB := create_backup cfg f ts st
    if rB.1 = false then (false, rB.2)
    else
      let rD := download_from_github cfg f archive rB.2
      if rD.1 = false then (false, cleanup f rD.2)
      else
        let rI := install_files f rD.2
        if rI.1 = false then (false, cleanup f (rollback f rI.2))
        else (true, cleanup f rI.2)

/-- The driver `main`: runs `install` on a fresh state and exits with
code 0 on success, 1 on failure. -/
def runMain (cfg : Config) (f : Faults) (ts : String) (archive : List SrcDir) (fs : FS) :
    Nat × St :=
  let r := install cfg f ts archive (initSt fs)
  (if r.1 then 0 else 1, r.2)

/-- Whether the download step fails, as a function of the configuration
and faults only (its outcome does not depend on the filesystem). -/
def dlFails (cfg : Config) (f : Faults) : Bool :=
  f.dlMkdtemp || (downloadUrl cfg.githubUrl).isNone || f.dlRetrieve || f.dlExtract

/-! ### Association-list lemmas -/

theorem findSnap_setSnap_self (l : List (String × BackupSnap)) (k : String) (v : BackupSnap) :
    findSnap (setSnap l k v) k = some v := by
  induction l with
  | nil => simp [setSnap, findSnap]
  | cons hd tl ih =>
    obtain ⟨k1, v1⟩ := hd
    by_cases h : k1 = k <;> simp [setSnap, findSnap, h, ih]

theorem findEntry_setEntry (d : Dir) (k v k' : String) :
    findEntry (setEntry d k v) k' = if k = k' then some v else findEntry d k' := by
  induction d with
  | nil =>
    by_cases h : k = k' <;> simp [setEntry, findEntry, h]
  | cons hd tl ih =>
    obtain ⟨k1, v1⟩ := hd
    by_cases h1 : k1 = k
    · subst h1
      by_cases h2 : k1 = k' <;> simp [setEntry, findEntry, h2]
    · by_cases h2 : k1 = k'
      · subst h2
        have : ¬ k = k1 := fun h => h1 h.symm
        simp [setEntry, findEntry, h1, this]
      · simp [setEntry, findEntry, h1, h2, ih]

/-! ### Frame and characterisation lemmas for the individual steps -/

theorem create_backup_frame (cfg : Config) (f : Faults) (ts : String) (st : St) :
    (create_backup cfg f ts st).2.fs.marker = st.fs.marker ∧
    (create_backup cfg f ts st).2.fs.copilot = st.fs.copilot ∧
    (create_backup cfg f ts st).2.fs.githubDir = st.fs.githubDir ∧
    (create_backup cfg f ts st).2.fs.targetExists = st.fs.targetExists ∧
    (create_backup cfg f ts st).2.fs.targetIsDir = st.fs.targetIsDir ∧
    (create_backup cfg f ts st).2.temp = st.temp ∧
    (create_backup cfg f ts st).2.cleanupCalled = st.cleanupCalled := by
  unfold create_backup backupMarkerStep backupCopilotStep
  cases hm : st.fs.marker <;> cases hc : st.fs.copilot <;>
    split_ifs <;> simp_all <;> (try split_ifs) <;> simp_all

theorem create_backup_success (cfg : Config) (f : Faults) (ts : String) (st : St)
    (hb : cfg.backup = true)
    (hfresh : findSnap st.fs.backupEntries (backupName ts) = none)
    (hok : (create_backup cfg f ts st).1 = true) :
    (create_backup cfg f ts st).2.backupDir = some (backupName ts) ∧
    findSnap (create_backup cfg f ts st).2.fs.backupEntries (backupName ts) =
      some { instrFile := st.fs.marker, copilot := st.fs.copilot } := by
  unfold create_backup backupMarkerStep backupCopilotStep at hok ⊢
  cases hm : st.fs.marker <;> cases hc : st.fs.copilot <;>
    simp_all [emptySnap, findSnap_setSnap_self] <;>
    split_ifs at hok ⊢ <;> simp_all [findSnap_setSnap_self]

theorem download_fs (cfg : Config) (f : Faults) (archive : List SrcDir) (st : St) :
    (download_from_github cfg f archive st).2.fs = st.fs ∧
    (download_from_github cfg f archive st).2.backupDir = st.backupDir ∧
    (download_from_github cfg f archive st).2.cleanupCalled = st.cleanupCalled := by
  unfold download_from_github
  cases h : downloadUrl cfg.githubUrl <;> split_ifs <;> simp_all

theorem download_ok_iff (cfg : Config) (f : Faults) (archive : List SrcDir) (st : St) :
    (download_from_github cfg f archive st).1 = !(dlFails cfg f) := by
  unfold download_from_github dlFails
  cases h : downloadUrl cfg.githubUrl <;> split_ifs <;> simp_all

theorem download_ok_temp (cfg : Config) (f : Faults) (archive : List SrcDir) (st : St)
    (h : dlFails cfg f = false) :
    (download_from_github cfg f archive st).2.temp = some { dirs := archive } := by
  unfold dlFails at h
  unfold download_from_github
  cases hu : downloadUrl cfg.githubUrl <;> split_ifs <;> simp_all

theorem installMarkerStep_frame (f : Faults) (src : SrcDir) (st : St) :
    (installMarkerStep f src st).2.fs.copilot = st.fs.copilot ∧
    (installMarkerStep f src st).2.fs.backupEntries = st.fs.backupEntries ∧
    (installMarkerStep f src st).2.backupDir = st.backupDir ∧
    (installMarkerStep f src st).2.temp = st.temp ∧
    (installMarkerStep f src st).2.cleanupCalled = st.cleanupCalled ∧
    (installMarkerStep f src st).2.fs.targetExists = st.fs.targetExists ∧
    (installMarkerStep f src st).2.fs.targetIsDir = st.fs.targetIsDir ∧
    (st.fs.githubDir = true → (installMarkerStep f src st).2.fs.githubDir = true) := by
  unfold installMarkerStep
  cases h : src.instrFile <;> split_ifs <;> simp_all

theorem installCopilotStep_frame (f : Faults) (src : SrcDir) (st : St) :
    (installCopilotStep f src st).2.fs.marker = st.fs.marker ∧
    (installCopilotStep f src st).2.fs.backupEntries = st.fs.backupEntries ∧
    (installCopilotStep f src st).2.backupDir = st.backupDir ∧
    (installCopilotStep f src st).2.temp = st.temp ∧
    (installCopilotStep f src st).2.cleanupCalled = st.cleanupCalled ∧
    (installCopilotStep f src st).2.fs.targetExists = st.fs.targetExists ∧
    (installCopilotStep f src st).2.fs.targetIsDir = st.fs.targetIsDir ∧
    (installCopilotStep f src st).2.fs.githubDir = st.fs.githubDir := by
  unfold installCopilotStep
  cases h : src.copilot <;> cases hc : st.fs.copilot <;> split_ifs <;> simp_all

theorem installReadmeStep_frame (f : Faults) (src : SrcDir) (st : St) :
    (installReadmeStep f src st).2.fs.marker = st.fs.marker ∧
    (installReadmeStep f src st).2.fs.backupEntries = st.fs.backupEntries ∧
    (installReadmeStep f src st).2.backupDir = st.backupDir ∧
    (installReadmeStep f src st).2.temp = st.temp ∧
    (installReadmeStep f src st).2.cleanupCalled = st.cleanupCalled ∧
    (installReadmeStep f src st).2.fs.targetExists = st.fs.targetExists ∧
    (installReadmeStep f src st).2.fs.targetIsDir = st.fs.targetIsDir ∧
    (installReadmeStep f src st).2.fs.githubDir = st.fs.githubDir := by
  unfold installReadmeStep
  cases h : src.readme <;> split_ifs <;> simp_all

theorem install_files_frame (f : Faults) (st : St) :
    (install_files f st).2.fs.backupEntries = st.fs.backupEntries ∧
    (install_files f st).2.backupDir = st.backupDir ∧
    (install_files f st).2.temp = st.temp ∧
    (install_files f st).2.cleanupCalled = st.cleanupCalled ∧
    (install_files f st).2.fs.targetExists = st.fs.targetExists ∧
    (install_files f st).2.fs.targetIsDir = st.fs.targetIsDir ∧
    (st.fs.githubDir = true → (install_files f st).2.fs.githubDir = true) := by
  unfold install_files
  cases hdirs : (match st.temp with | none => [] | some t => t.dirs) with
  | nil => simp
  | cons src rest =>
    have h1 := installMarkerStep_frame f src st
    rcases hr1 : installMarkerStep f src st with ⟨ok1, st1⟩
    rw [hr1] at h1
    simp only at h1
    have h2 := installCopilotStep_frame f src st1
    rcases hr2 : installCopilotStep f src st1 with ⟨ok2, st2⟩
    rw [hr2] at h2
    simp only at h2
    have h3 := installReadmeStep_frame f src st2
    rcases hr3 : installReadmeStep f src st2 with ⟨ok3, st3⟩
    rw [hr3] at h3
    simp only at h3
    cases ok1 <;> cases ok2 <;> simp_all [hr1, hr2, hr3]

theorem cleanup_props (f : Faults) (st : St) :
    (cleanup f st).fs = st.fs ∧
    (cleanup f st).backupDir = st.backupDir ∧
    (cleanup f st).cleanupCalled = true := by
  unfold cleanup
  cases h : st.temp <;> split_ifs <;> simp_all

theorem cleanup_temp_removed (f : Faults) (st : St) (h : f.cleanupRmtree = false) :
    (cleanup f st).temp = none := by
  unfold cleanup
  cases ht : st.temp <;> simp_all

theorem rollbackCopilot_marker (f : Faults) (snap : BackupSnap) (st : St) :
    (rollbackCopilot f snap st).fs.marker = st.fs.marker ∧
    (rollbackCopilot f snap st).fs.backupEntries = st.fs.backupEntries ∧
    (rollbackCopilot f snap st).temp = st.temp ∧
    (rollbackCopilot f snap st).backupDir = st.backupDir ∧
    (rollbackCopilot f snap st).cleanupCalled = st.cleanupCalled := by
  unfold rollbackCopilot
  cases h : snap.copilot <;> cases hc : st.fs.copilot <;> split_ifs <;> simp_all

theorem rollbackCopilot_restores (f : Faults) (snap : BackupSnap) (st : St)
    (hf2 : f.rbRmtree = false) (hf3 : f.rbCopyTree = false) :
    ∀ d, snap.copilot = some d → (rollbackCopilot f snap st).fs.copilot = some d := by
  intro d hd
  unfold rollbackCopilot
  cases hc : st.fs.copilot <;> simp_all

theorem rollback_frame (f : Faults) (st : St) :
    (rollback f st).fs.backupEntries = st.fs.backupEntries ∧
    (rollback f st).temp = st.temp ∧
    (rollback f st).backupDir = st.backupDir ∧
    (rollback f st).cleanupCalled = st.cleanupCalled := by
  unfold rollback
  cases hbd : st.backupDir with
  | none => simp [hbd]
  | some name =>
    cases hs : findSnap st.fs.backupEntries name with
    | none => simp [hbd, hs]
    | some snap =>
      cases hi : snap.instrFile <;> simp only [hbd, hs, hi] <;> (try split_ifs) <;>
        simp_all [rollbackCopilot_marker]

theorem rollback_restores (f : Faults) (st : St) (name : String) (snap : BackupSnap)
    (hbd : st.backupDir = some name)
    (hsnap : findSnap st.fs.backupEntries name = some snap)
    (hf1 : f.rbCopyFile = false) (hf2 : f.rbRmtree = false) (hf3 : f.rbCopyTree = false)
    (hgh : snap.instrFile.isSome = true → st.fs.githubDir = true) :
    (∀ m, snap.instrFile = some m → (rollback f st).fs.marker = some m) ∧
    (∀ d, snap.copilot = some d → (rollback f st).fs.copilot = some d) := by
  unfold rollback
  cases hi : snap.instrFile with
  | none =>
    simp only [hbd, hsnap, hi]
    constructor
    · intro m hm; simp [hi] at hm
    · intro d hd
      exact rollbackCopilot_restores f snap _ hf2 hf3 d hd
  | some m0 =>
    have hg : st.fs.githubDir = true := hgh (by simp [hi])
    simp only [hbd, hsnap, hi, hf1, hg]
    rw [if_neg (by simp)]
    constructor
    · intro m hm
      obtain rfl : m0 = m := by injection hm
      simp [rollbackCopilot_marker]
    · intro d hd
      exact rollbackCopilot_restores f snap _ hf2 hf3 d hd

theorem initSt_fs (fs : FS) : (initSt fs).fs = fs := rfl

/-! ### Concrete fixtures used by counterexamples and witnesses -/

/-- An empty, valid target directory: no prior installation. -/
def fsEmpty : FS :=
  { targetExists := true, targetIsDir := true, githubDir := false,
    marker := none, copilot := none, backupEntries := [] }

/-- A valid target with a prior installation: marker file `"old"`. -/
def fsMark : FS :=
  { targetExists := true, targetIsDir := true, githubDir := true,
    marker := some "old", copilot := none, backupEntries := [] }

/-- Configuration with a GitHub repo URL, defaults (`backup` on). -/
def cfgGhB : Config :=
  { githubUrl := "https://github.com/u/r", force := false, backup := true }

/-- Same, with `--force` set. -/
def cfgGhFB : Config :=
  { githubUrl := "https://github.com/u/r", force := true, backup := true }

/-- Same, with `--no-backup`. -/
def cfgGhNoB : Config :=
  { githubUrl := "https://github.com/u/r", force := false, backup := false }

/-! ### The claims -/

/-- C5: for every run where the target already contains the marker file
(`.github/copilot-instructions.md`) or the hidden installed directory
(`.copilot`) and the overwrite/force flag is not set, the run fails
(exit code 1 from the driver) and no filesystem entry in the target tree
is created, modified, or deleted. -/
theorem C5_conflict_blocks (cfg : Config) (f : Faults) (ts : String)
    (archive : List SrcDir) (fs : FS)
    (hex : (fs.marker.isSome || fs.copilot.isSome) = true)
    (hforce : cfg.force = false) :
    (runMain cfg f ts archive fs).1 = 1 ∧ (runMain cfg f ts archive fs).2.fs = fs := by
  unfold runMain install
  by_cases hv : validate_target fs = false
  · simp [hv, initSt_fs]
  · have hchk : check_existing_installation cfg fs = false := by
      unfold check_existing_installation
      simp [hex, hforce]
    simp [hv, hchk, initSt_fs]

/-- C5 witness: a concrete target carrying the marker file, without
`--force`: the driver exits 1 and the tree is untouched. -/
theorem C5_conflict_blocks_witness :
    ((fsMark.marker.isSome || fsMark.copilot.isSome) = true ∧ cfgGhB.force = false) ∧
    (runMain cfgGhB noFaults "T" [] fsMark).1 = 1 ∧
    (runMain cfgGhB noFaults "T" [] fsMark).2.fs = fsMark :=
  ⟨⟨by decide, by decide⟩,
    C5_conflict_blocks cfgGhB noFaults "T" [] fsMark (by decide) (by decide)⟩

/-- C6: for every input, if the target path does not exist or exists but
is not a directory, the run fails and performs no filesystem writes of
any kind: the target tree is unchanged, no temporary area and no backup
directory reference exist when the run terminates. -/
theorem C6_invalid_target (cfg : Config) (f : Faults) (ts : String)
    (archive : List SrcDir) (fs : FS)
    (h : fs.targetExists = false ∨ fs.targetIsDir = false) :
    (runMain cfg f ts archive fs).1 = 1 ∧
    (runMain cfg f ts archive fs).2.fs = fs ∧
    (runMain cfg f ts archive fs).2.temp = none ∧
    (runMain cfg f ts archive fs).2.backupDir = none := by
  have hv : validate_target fs = false := by
    unfold validate_target
    rcases h with h | h <;> simp [h]
  unfold runMain install
  simp [hv, initSt_fs, initSt]

/-- C6 witness: a concrete nonexistent target: exit 1 and no writes. -/
theorem C6_invalid_target_witness :
    ({ fsEmpty with targetExists := false }.targetExists = false ∨
       { fsEmpty with targetExists := false }.targetIsDir = false) ∧
    (runMain cfgGhB noFaults "T" [] { fsEmpty with targetExists := false }).1 = 1 ∧
    (runMain cfgGhB noFaults "T" [] { fsEmpty with targetExists := false }).2.fs =
      { fsEmpty with targetExists := false } ∧
    (runMain cfgGhB noFaults "T" [] { fsEmpty with targetExists := false }).2.temp = none ∧
    (runMain cfgGhB noFaults "T" [] { fsEmpty with targetExists := false }).2.backupDir =
      none :=
  ⟨Or.inl (by decide),
    C6_invalid_target cfgGhB noFaults "T" [] _ (Or.inl (by decide))⟩

/-- C9: on every execution path of the install workflow that reaches the
fetch step — fetch failure, install failure, and success — the cleanup
step runs before the run terminates. -/
theorem C9_cleanup_always_runs (cfg : Config) (f : Faults) (ts : String)
    (archive : List SrcDir) (fs : FS)
    (hv : validate_target fs = true)
    (hc : check_existing_installation cfg fs = true)
    (hb : (create_backup cfg f ts (initSt fs)).1 = true) :
    (runMain cfg f ts archive fs).2.cleanupCalled = true := by
  unfold runMain install
  rcases hB : create_backup cfg f ts (initSt fs) with ⟨okB, stB⟩
  rw [hB] at hb
  simp only at hb
  subst hb
  rcases hD : download_from_github cfg f archive stB with ⟨okD, stD⟩
  simp only [initSt_fs, hv, hc, hB, hD]
  cases okD with
  | false => simp [(cleanup_props f stD).2.2]
  | true =>
    rcases hI : install_files f stD with ⟨okI, stI⟩
    simp only [hI]
    cases okI with
    | false => simp [(cleanup_props f (rollback f stI)).2.2]
    | true => simp [(cleanup_props f stI).2.2]

/-- C9 witness: a concrete run reaching fetch (which then fails): the
cleanup step has run at termination. -/
theorem C9_cleanup_always_runs_witness :
    (validate_target fsEmpty = true ∧
      check_existing_installation cfgGhB fsEmpty = true ∧
      (create_backup cfgGhB { noFaults with dlRetrieve := true } "T" (initSt fsEmpty)).1 =
        true) ∧
    (runMain cfgGhB { noFaults with dlRetrieve := true } "T" [] fsEmpty).2.cleanupCalled =
      true :=
  ⟨⟨by decide, by decide, by decide⟩,
    C9_cleanup_always_runs cfgGhB { noFaults with dlRetrieve := true } "T" [] fsEmpty
      (by decide) (by decide) (by decide)⟩

/-- The notion, following the spec, of a source-control repository URL, against which
C7 is stated: `https://github.com/{owner}/{repo}` (or `http`), with
nonempty owner and repo segments and nothing after them (trailing
slashes ignored). -/
def specRepoUrl (url : String) : Bool :=
  match splitOnChar '/' (rstripSlashChars url.data) with
  | [scheme, mid, host, user, repo] =>
    if (scheme = "https:".data ∨ scheme = "http:".data) ∧ mid = [] ∧
        host = githubChars ∧ user ≠ [] ∧ repo ≠ [] then true else false
  | _ => false

/-- C7 counterexample: a direct-archive URL is not a repository URL, yet
`download_from_github` does not use it verbatim — because it contains
the substring `github.com` it is re-derived, yielding a nonsense archive
URL of the "repository" `heads/main.zip`. -/
theorem C7_counterexample :
    specRepoUrl "https://github.com/u/r/archive/refs/heads/main.zip" = false ∧
    downloadUrl "https://github.com/u/r/archive/refs/heads/main.zip" ≠
      some "https://github.com/u/r/archive/refs/heads/main.zip" ∧
    downloadUrl "https://github.com/u/r/archive/refs/heads/main.zip" =
      some "https://github.com/heads/main.zip/archive/refs/heads/main.zip" := by
  refine ⟨by decide, by decide, by decide⟩

/-- C7 amended: the branch is decided by the substring test
`"github.com" in url`, not by whether the URL identifies a repository:
any URL not containing `github.com` is used verbatim (even a repository
URL on another host), and any URL containing it — repository or not —
is rewritten to
`https://github.com/{last-but-one}/{last}/archive/refs/heads/main.zip`
from the last two `/`-separated segments. -/
theorem C7_amended :
    (∀ url : String, listHasSub githubChars url.data = false →
      downloadUrl url = some url) ∧
    downloadUrl "https://github.com/user/repo" =
      some "https://github.com/user/repo/archive/refs/heads/main.zip" ∧
    downloadUrl "https://gitlab.com/user/repo" = some "https://gitlab.com/user/repo" ∧
    downloadUrl "https://github.com/u/r/archive/refs/heads/main.zip" =
      some "https://github.com/heads/main.zip/archive/refs/heads/main.zip" := by
  refine ⟨fun url h => ?_, by decide, by decide, by decide⟩
  unfold downloadUrl
  simp [h]

/-- C7 amended witness: the verbatim branch applied at a concrete
non-`github.com` URL. -/
theorem C7_amended_witness :
    listHasSub githubChars "https://example.com/bundle.zip".data = false ∧
    downloadUrl "https://example.com/bundle.zip" = some "https://example.com/bundle.zip" :=
  ⟨by decide, C7_amended.1 "https://example.com/bundle.zip" (by decide)⟩

/-- C4 counterexample: with backup enabled and nothing to back up (no
marker file, no `.copilot`), `create_backup` is not a no-op: it still
creates the empty timestamped backup directory, changing the target
tree. -/
theorem C4_counterexample :
    fsEmpty.marker = none ∧ fsEmpty.copilot = none ∧ cfgGhB.backup = true ∧
    (create_backup cfgGhB noFaults "T" (initSt fsEmpty)).1 = true ∧
    (create_backup cfgGhB noFaults "T" (initSt fsEmpty)).2.fs ≠ fsEmpty ∧
    (create_backup cfgGhB noFaults "T" (initSt fsEmpty)).2.fs.backupEntries =
      [(".copilot_backup_T", emptySnap)] := by
  refine ⟨by decide, by decide, by decide, by decide, by decide, by decide⟩

/-- C4 amended: when backup is disabled the backup step is a successful
no-op; when backup is enabled it always creates the timestamped backup
directory — even when there is nothing to back up, leaving it empty —
and copies the marker file and the `.copilot` tree into it exactly when
they exist, touching nothing else of the target tree. -/
theorem C4_amended (cfg : Config) (f : Faults) (ts : String) (st : St) :
    (cfg.backup = false → create_backup cfg f ts st = (true, st)) ∧
    (cfg.backup = true → f.backupMkdir = false → f.backupCopyFile = false →
      f.backupCopyTree = false →
      findSnap st.fs.backupEntries (backupName ts) = none →
      (create_backup cfg f ts st).1 = true ∧
      findSnap (create_backup cfg f ts st).2.fs.backupEntries (backupName ts) =
        some { instrFile := st.fs.marker, copilot := st.fs.copilot } ∧
      (create_backup cfg f ts st).2.fs.marker = st.fs.marker ∧
      (create_backup cfg f ts st).2.fs.copilot = st.fs.copilot ∧
      (create_backup cfg f ts st).2.fs.githubDir = st.fs.githubDir) := by
  constructor
  · intro hb
    unfold create_backup
    simp [hb]
  · intro hb h1 h2 h3 hfresh
    have hok : (create_backup cfg f ts st).1 = true := by
      unfold create_backup backupMarkerStep backupCopilotStep
      cases hm : st.fs.marker <;> cases hc : st.fs.copilot <;>
        simp_all [emptySnap, findSnap_setSnap_self]
    have hsucc := create_backup_success cfg f ts st hb hfresh hok
    have hframe := create_backup_frame cfg f ts st
    exact ⟨hok, hsucc.2, hframe.1, hframe.2.1, hframe.2.2.1⟩

/-- C4 amended witness: concrete instantiation of the hypotheses of both
branches, on a target carrying a marker file. -/
theorem C4_amended_witness :
    (cfgGhB.backup = true ∧
      findSnap fsMark.backupEntries (backupName "T") = none) ∧
    (create_backup cfgGhB noFaults "T" (initSt fsMark)).1 = true ∧
    findSnap (create_backup cfgGhB noFaults "T" (initSt fsMark)).2.fs.backupEntries
        (backupName "T") =
      some { instrFile := fsMark.marker, copilot := fsMark.copilot } ∧
    (create_backup cfgGhB noFaults "T" (initSt fsMark)).2.fs.marker = fsMark.marker ∧
    (create_backup cfgGhB noFaults "T" (initSt fsMark)).2.fs.copilot = fsMark.copilot ∧
    (create_backup cfgGhB noFaults "T" (initSt fsMark)).2.fs.githubDir =
      fsMark.githubDir :=
  ⟨⟨by decide, by decide⟩,
    (C4_amended cfgGhB noFaults "T" (initSt fsMark)).2 (by decide) (by decide) (by decide)
      (by decide) (by decide)⟩

/-- C2 counterexample: backup is enabled (the default), the target is an
empty valid directory, and the download fails: the run exits 1 but the
target tree is not byte-identical to its pre-run state — the backup step
already created an (empty) `.copilot_backup_<ts>` directory inside it,
and it is never removed. -/
theorem C2_counterexample :
    (runMain cfgGhB { noFaults with dlRetrieve := true } "T" [] fsEmpty).1 = 1 ∧
    (runMain cfgGhB { noFaults with dlRetrieve := true } "T" [] fsEmpty).2.fs ≠ fsEmpty ∧
    (runMain cfgGhB { noFaults with dlRetrieve := true } "T" [] fsEmpty).2.fs.backupEntries =
      [(".copilot_backup_T", emptySnap)] := by
  refine ⟨by decide, by decide, by decide⟩

/-- C2 amended: for every run in which the fetch step fails, the target
tree is unchanged except possibly for the timestamped backup directory
the backup step created, and the temporary area has been removed
provided its removal does not itself raise: the marker file, the
`.copilot` directory, `.github` and the target path itself are exactly
as before the run. -/
theorem C2_amended (cfg : Config) (f : Faults) (ts : String)
    (archive : List SrcDir) (fs : FS)
    (hdl : dlFails cfg f = true) (hcl : f.cleanupRmtree = false) :
    (runMain cfg f ts archive fs).1 = 1 ∧
    (runMain cfg f ts archive fs).2.fs.marker = fs.marker ∧
    (runMain cfg f ts archive fs).2.fs.copilot = fs.copilot ∧
    (runMain cfg f ts archive fs).2.fs.githubDir = fs.githubDir ∧
    (runMain cfg f ts archive fs).2.fs.targetExists = fs.targetExists ∧
    (runMain cfg f ts archive fs).2.fs.targetIsDir = fs.targetIsDir ∧
    (runMain cfg f ts archive fs).2.temp = none := by
  unfold runMain install
  by_cases hv : validate_target fs = false
  · simp [hv, initSt_fs, initSt]
  · by_cases hc : check_existing_installation cfg fs = false
    · simp [hv, hc, initSt_fs, initSt]
    · rcases hB : create_backup cfg f ts (initSt fs) with ⟨okB, stB⟩
      have hBf := create_backup_frame cfg f ts (initSt fs)
      rw [hB] at hBf
      simp only [initSt_fs, initSt] at hBf
      cases okB with
      | false => simp_all [hB, initSt_fs]
      | true =>
        rcases hD : download_from_github cfg f archive stB with ⟨okD, stD⟩
        have hDf := download_fs cfg f archive stB
        have hDok := download_ok_iff cfg f archive stB
        rw [hD] at hDf hDok
        simp only [hdl] at hDok
        simp only at hDf hDok
        subst hDok
        have hCf := cleanup_props f stD
        have hCt := cleanup_temp_removed f stD hcl
        simp only [initSt_fs, hv, hc, hB, hD]
        simp_all

/-- C2 amended witness: the concrete failed-fetch run of the
counterexample satisfies the amended guarantees. -/
theorem C2_amended_witness :
    (dlFails cfgGhB { noFaults with dlRetrieve := true } = true ∧
      ({ noFaults with dlRetrieve := true } : Faults).cleanupRmtree = false) ∧
    (runMain cfgGhB { noFaults with dlRetrieve := true } "T" [] fsEmpty).1 = 1 ∧
    (runMain cfgGhB { noFaults with dlRetrieve := true } "T" [] fsEmpty).2.fs.marker =
      fsEmpty.marker ∧
    (runMain cfgGhB { noFaults with dlRetrieve := true } "T" [] fsEmpty).2.fs.copilot =
      fsEmpty.copilot ∧
    (runMain cfgGhB { noFaults with dlRetrieve := true } "T" [] fsEmpty).2.fs.githubDir =
      fsEmpty.githubDir ∧
    (runMain cfgGhB { noFaults with dlRetrieve := true } "T" [] fsEmpty).2.fs.targetExists =
      fsEmpty.targetExists ∧
    (runMain cfgGhB { noFaults with dlRetrieve := true } "T" [] fsEmpty).2.fs.targetIsDir =
      fsEmpty.targetIsDir ∧
    (runMain cfgGhB { noFaults with dlRetrieve := true } "T" [] fsEmpty).2.temp = none :=
  ⟨⟨by decide, by decide⟩,
    C2_amended cfgGhB { noFaults with dlRetrieve := true } "T" [] fsEmpty
      (by decide) (by decide)⟩

/-- C3 counterexample: backup enabled, `--force`, prior marker file
`"old"`; the downloaded archive extracts to no top-level directory, so
the install step fails and rollback runs.  The marker file is intact,
but the final target tree is not byte-identical to its pre-run state:
the timestamped backup directory created before the fetch remains. -/
theorem C3_counterexample :
    (runMain cfgGhFB noFaults "T" [] fsMark).1 = 1 ∧
    (runMain cfgGhFB noFaults "T" [] fsMark).2.fs ≠ fsMark ∧
    (runMain cfgGhFB noFaults "T" [] fsMark).2.fs.backupEntries =
      [(".copilot_backup_T", { instrFile := some "old", copilot := none })] ∧
    fsMark.backupEntries = [] := by
  refine ⟨by decide, by decide, by decide, by decide⟩

/-- C3 amended: when a backup was taken (backup enabled, fresh
timestamp) and the install step fails, then — provided the rollback and
cleanup primitives do not themselves raise — the run exits 1, every
pre-existing marker file and `.copilot` directory is restored to its
pre-run content, the temporary area is removed, and the timestamped
backup directory (containing the pre-run copies) remains in the target
tree; entries first written by the failed install and absent pre-run are
not guaranteed to be removed. -/
theorem C3_amended (cfg : Config) (f : Faults) (ts : String) (archive : List SrcDir) (fs : FS)
    (hb : cfg.backup = true)
    (hv : validate_target fs = true)
    (hc : check_existing_installation cfg fs = true)
    (hfresh : findSnap fs.backupEntries (backupName ts) = none)
    (hwf : fs.marker.isSome = true → fs.githubDir = true)
    (hB : (create_backup cfg f ts (initSt fs)).1 = true)
    (hdl : dlFails cfg f = false)
    (hI : (install_files f
        (download_from_github cfg f archive (create_backup cfg f ts (initSt fs)).2).2).1 =
      false)
    (hrb1 : f.rbCopyFile = false) (hrb2 : f.rbRmtree = false) (hrb3 : f.rbCopyTree = false)
    (hcl : f.cleanupRmtree = false) :
    (runMain cfg f ts archive fs).1 = 1 ∧
    (∀ m, fs.marker = some m → (runMain cfg f ts archive fs).2.fs.marker = some m) ∧
    (∀ d, fs.copilot = some d → (runMain cfg f ts archive fs).2.fs.copilot = some d) ∧
    (runMain cfg f ts archive fs).2.temp = none ∧
    findSnap (runMain cfg f ts archive fs).2.fs.backupEntries (backupName ts) =
      some { instrFile := fs.marker, copilot := fs.copilot } := by
  have hBsucc := create_backup_success cfg f ts (initSt fs) hb hfresh hB
  have hBf := create_backup_frame cfg f ts (initSt fs)
  rcases hBe : create_backup cfg f ts (initSt fs) with ⟨okB, stB⟩
  rw [hBe] at hB hI hBsucc hBf
  simp only [initSt_fs] at hBsucc hBf
  simp only at hB
  subst hB
  have hDf := download_fs cfg f archive stB
  have hDok := download_ok_iff cfg f archive stB
  rcases hDe : download_from_github cfg f archive stB with ⟨okD, stD⟩
  rw [hDe] at hI hDf hDok
  simp only [hdl, Bool.not_false] at hDok
  subst hDok
  have hIf := install_files_frame f stD
  rcases hIe : install_files f stD with ⟨okI, stI⟩
  rw [hIe] at hI hIf
  simp only at hI hIf
  subst hI
  -- backup directory and snapshot survive to the install-failure point
  have hbd : stI.backupDir = some (backupName ts) := by
    rw [hIf.2.1, hDf.2.1, hBsucc.1]
  have hsnap : findSnap stI.fs.backupEntries (backupName ts) =
      some { instrFile := fs.marker, copilot := fs.copilot } := by
    rw [hIf.1, hDf.1, hBsucc.2]
  have hgh : ({ instrFile := fs.marker, copilot := fs.copilot } : BackupSnap).instrFile.isSome =
      true → stI.fs.githubDir = true := by
    intro hsome
    have h1 : fs.githubDir = true := hwf (by simpa using hsome)
    have h2 : stD.fs.githubDir = true := by rw [hDf.1, hBf.2.2.1]; exact h1
    exact hIf.2.2.2.2.2.2 h2
  have hroll := rollback_restores f stI (backupName ts)
    { instrFile := fs.marker, copilot := fs.copilot } hbd hsnap hrb1 hrb2 hrb3 hgh
  have hrollf := rollback_frame f stI
  have hclf := cleanup_props f (rollback f stI)
  have hclt := cleanup_temp_removed f (rollback f stI) hcl
  have hrun : runMain cfg f ts archive fs = (1, cleanup f (rollback f stI)) := by
    unfold runMain install
    simp [initSt_fs, hv, hc, hBe, hDe, hIe]
  rw [hrun]
  refine ⟨rfl, ?_, ?_, ?_, ?_⟩
  · intro m hm
    rw [hclf.1]
    exact hroll.1 m (by simp [hm])
  · intro d hd
    rw [hclf.1]
    exact hroll.2 d (by simp [hd])
  · exact hclt
  · rw [hclf.1, hrollf.1, hsnap]

/-- C3 amended witness: a concrete failed install (marker `"old"`
pre-exists, archive provides marker `"new"` and a `.copilot` whose copy
raises): the marker is restored to `"old"`, the temporary area is gone,
and the backup directory holds the pre-run copy. -/
theorem C3_amended_witness :
    ((install_files { noFaults with instCopyTree := true }
        (download_from_github cfgGhFB { noFaults with instCopyTree := true }
          [{ instrFile := some "new", copilot := some [], readme := none }]
          (create_backup cfgGhFB { noFaults with instCopyTree := true } "T"
            (initSt fsMark)).2).2).1 = false) ∧
    (runMain cfgGhFB { noFaults with instCopyTree := true } "T"
      [{ instrFile := some "new", copilot := some [], readme := none }] fsMark).1 = 1 ∧
    (runMain cfgGhFB { noFaults with instCopyTree := true } "T"
      [{ instrFile := some "new", copilot := some [], readme := none }] fsMark).2.fs.marker =
      some "old" ∧
    (runMain cfgGhFB { noFaults with instCopyTree := true } "T"
      [{ instrFile := some "new", copilot := some [], readme := none }] fsMark).2.temp =
      none := by
  have h := C3_amended cfgGhFB { noFaults with instCopyTree := true } "T"
    [{ instrFile := some "new", copilot := some [], readme := none }] fsMark
    (by decide) (by decide) (by decide) (by decide) (by decide) (by decide) (by decide)
    (by decide) (by decide) (by decide) (by decide) (by decide)
  exact ⟨by decide, h.1, h.2.1 "old" (by decide), h.2.2.2.1⟩

/-- C1 counterexample: backup enabled, `--force`, pre-existing marker
`"old"`.  The archive carries marker `"new"` and a `.copilot` directory;
the install step overwrites the marker and then fails copying
`.copilot`, and the copy of the marker done by rollback raises (rollback
is best-effort).  The run terminates in failure with the marker left at
`"new"`: neither a complete successful install nor a full restoration
from the snapshot. -/
theorem C1_counterexample :
    cfgGhFB.backup = true ∧ fsMark.marker = some "old" ∧
    (runMain cfgGhFB { noFaults with instCopyTree := true, rbCopyFile := true } "T"
      [{ instrFile := some "new", copilot := some [], readme := none }] fsMark).1 = 1 ∧
    (runMain cfgGhFB { noFaults with instCopyTree := true, rbCopyFile := true } "T"
      [{ instrFile := some "new", copilot := some [], readme := none }] fsMark).2.fs.marker =
      some "new" := by
  refine ⟨by decide, by decide, by decide, by decide⟩

/-- C1 amended: for every run with backup enabled (fresh timestamp,
well-formed target), provided the primitives of the best-effort rollback
do not raise, either the install completes successfully (exit 0) or
every pre-existing marker file and hidden `.copilot` directory has been
restored to its pre-run content before the run terminates with failure.
(As stated, the claim fails: rollback is best-effort, and a raise inside
it leaves the partially-overwritten tree in place.) -/
theorem C1_invariant_amended (cfg : Config) (f : Faults) (ts : String)
    (archive : List SrcDir) (fs : FS)
    (hb : cfg.backup = true)
    (hfresh : findSnap fs.backupEntries (backupName ts) = none)
    (hwf : fs.marker.isSome = true → fs.githubDir = true)
    (hrb1 : f.rbCopyFile = false) (hrb2 : f.rbRmtree = false) (hrb3 : f.rbCopyTree = false) :
    (runMain cfg f ts archive fs).1 = 0 ∨
    ((∀ m, fs.marker = some m → (runMain cfg f ts archive fs).2.fs.marker = some m) ∧
     (∀ d, fs.copilot = some d → (runMain cfg f ts archive fs).2.fs.copilot = some d)) := by
  by_cases hv : validate_target fs = false
  · have hrun : runMain cfg f ts archive fs = (1, initSt fs) := by
      unfold runMain install
      simp [hv, initSt_fs]
    rw [hrun]
    right
    exact ⟨fun m hm => by simp [initSt_fs, hm], fun d hd => by simp [initSt_fs, hd]⟩
  · by_cases hc : check_existing_installation cfg fs = false
    · have hrun : runMain cfg f ts archive fs = (1, initSt fs) := by
        unfold runMain install
        simp [hv, hc, initSt_fs]
      rw [hrun]
      right
      exact ⟨fun m hm => by simp [initSt_fs, hm], fun d hd => by simp [initSt_fs, hd]⟩
    · have hBsucc0 := create_backup_success cfg f ts (initSt fs) hb hfresh
      have hBf := create_backup_frame cfg f ts (initSt fs)
      rcases hBe : create_backup cfg f ts (initSt fs) with ⟨okB, stB⟩
      rw [hBe] at hBsucc0 hBf
      simp only [initSt_fs] at hBsucc0 hBf
      cases okB with
      | false =>
        have hrun : runMain cfg f ts archive fs = (1, stB) := by
          unfold runMain install
          simp [hv, hc, initSt_fs, hBe]
        rw [hrun]
        right
        exact ⟨fun m hm => by rw [hBf.1, hm], fun d hd => by rw [hBf.2.1, hd]⟩
      | true =>
        have hBsucc := hBsucc0 rfl
        have hDf := download_fs cfg f archive stB
        rcases hDe : download_from_github cfg f archive stB with ⟨okD, stD⟩
        rw [hDe] at hDf
        simp only at hDf
        cases okD with
        | false =>
          have hclf := cleanup_props f stD
          have hrun : runMain cfg f ts archive fs = (1, cleanup f stD) := by
            unfold runMain install
            simp [hv, hc, initSt_fs, hBe, hDe]
          rw [hrun]
          right
          constructor
          · intro m hm
            rw [hclf.1, hDf.1, hBf.1, hm]
          · intro d hd
            rw [hclf.1, hDf.1, hBf.2.1, hd]
        | true =>
          have hIf := install_files_frame f stD
          rcases hIe : install_files f stD with ⟨okI, stI⟩
          rw [hIe] at hIf
          simp only at hIf
          cases okI with
          | true =>
            left
            unfold runMain install
            simp [hv, hc, initSt_fs, hBe, hDe, hIe]
          | false =>
            have hbd : stI.backupDir = some (backupName ts) := by
              rw [hIf.2.1, hDf.2.1, hBsucc.1]
            have hsnap : findSnap stI.fs.backupEntries (backupName ts) =
                some { instrFile := fs.marker, copilot := fs.copilot } := by
              rw [hIf.1, hDf.1, hBsucc.2]
            have hgh : ({ instrFile := fs.marker, copilot := fs.copilot } :
                BackupSnap).instrFile.isSome = true → stI.fs.githubDir = true := by
              intro hsome
              have h1 : fs.githubDir = true := hwf (by simpa using hsome)
              have h2 : stD.fs.githubDir = true := by rw [hDf.1, hBf.2.2.1]; exact h1
              exact hIf.2.2.2.2.2.2 h2
            have hroll := rollback_restores f stI (backupName ts)
              { instrFile := fs.marker, copilot := fs.copilot } hbd hsnap hrb1 hrb2 hrb3 hgh
            have hclf := cleanup_props f (rollback f stI)
            have hrun : runMain cfg f ts archive fs = (1, cleanup f (rollback f stI)) := by
              unfold runMain install
              simp [hv, hc, initSt_fs, hBe, hDe, hIe]
            rw [hrun]
            right
            constructor
            · intro m hm
              rw [hclf.1]
              exact hroll.1 m (by simp [hm])
            · intro d hd
              rw [hclf.1]
              exact hroll.2 d (by simp [hd])

/-- C1 amended witness: the same failed install as the C3 witness, with
a fault-free rollback: the pre-existing marker is restored. -/
theorem C1_invariant_amended_witness :
    (cfgGhFB.backup = true ∧
      findSnap fsMark.backupEntries (backupName "T") = none) ∧
    ((runMain cfgGhFB { noFaults with instCopyTree := true } "T"
        [{ instrFile := some "new", copilot := some [], readme := none }] fsMark).1 = 0 ∨
      ((∀ m, fsMark.marker = some m →
          (runMain cfgGhFB { noFaults with instCopyTree := true } "T"
            [{ instrFile := some "new", copilot := some [], readme := none }]
            fsMark).2.fs.marker = some m) ∧
        (∀ d, fsMark.copilot = some d →
          (runMain cfgGhFB { noFaults with instCopyTree := true } "T"
            [{ instrFile := some "new", copilot := some [], readme := none }]
            fsMark).2.fs.copilot = some d))) :=
  ⟨⟨by decide, by decide⟩,
    C1_invariant_amended cfgGhFB { noFaults with instCopyTree := true } "T"
      [{ instrFile := some "new", copilot := some [], readme := none }] fsMark
      (by decide) (by decide) (by decide) (by decide) (by decide) (by decide)⟩

/-- C8: when the first top-level directory of the extracted archive contains
`.copilot` and the target already contains a `.copilot` directory, a
successful `install_files` replaces the destination wholesale: every
entry of the resulting `.copilot` comes from the archive (from its
`.copilot` tree, or the top-level `README.md` of the archive copied in
afterwards) — no entry of the old destination directory survives. -/
theorem C8_remove_then_copy (f : Faults) (st : St) (src : SrcDir) (rest : List SrcDir)
    (d dOld : Dir)
    (htemp : st.temp = some { dirs := src :: rest })
    (hsrc : src.copilot = some d)
    (hold : st.fs.copilot = some dOld)
    (hok : (install_files f st).1 = true) :
    ∃ dNew, (install_files f st).2.fs.copilot = some dNew ∧
      ∀ k v, findEntry dNew k = some v →
        findEntry d k = some v ∨ (k = "README.md" ∧ src.readme = some v) := by
  unfold install_files at hok ⊢
  simp only [htemp] at hok ⊢
  rcases hr1 : installMarkerStep f src st with ⟨ok1, st1⟩
  have h1f := installMarkerStep_frame f src st
  rw [hr1] at hok h1f
  simp only at h1f
  cases ok1 with
  | false => simp at hok
  | true =>
    have h1c : st1.fs.copilot = some dOld := by rw [h1f.1, hold]
    simp only [Bool.true_eq_false, if_false] at hok ⊢
    rcases hr2 : installCopilotStep f src st1 with ⟨ok2, st2⟩
    rw [hr2] at hok
    cases ok2 with
    | false => simp at hok
    | true =>
      have h2c : st2.fs.copilot = some d := by
        unfold installCopilotStep at hr2
        rw [hsrc, h1c] at hr2
        simp only at hr2
        split_ifs at hr2
        · simp at hr2
        · simp at hr2
        · have h := congrArg Prod.snd hr2
          simp only at h
          rw [← h]
      simp only [Bool.true_eq_false, if_false] at hok ⊢
      cases hre : src.readme with
      | none =>
        have h3 : installReadmeStep f src st2 = (true, st2) := by
          unfold installReadmeStep
          rw [hre]
        rw [h3] at hok ⊢
        exact ⟨d, h2c, fun k v hv => Or.inl hv⟩
      | some r =>
        have h3 : installReadmeStep f src st2 =
            (if f.instReadmeMkdir then (false, st2)
             else if f.instReadmeCopy then
               (false, { st2 with fs := { st2.fs with copilot := some d } })
             else (true, { st2 with fs :=
               { st2.fs with copilot := some (setEntry d "README.md" r) } })) := by
          unfold installReadmeStep
          rw [hre]
          simp [h2c]
        rw [h3] at hok ⊢
        split_ifs at hok ⊢ <;> simp_all
        intro k v hv
        rw [findEntry_setEntry] at hv
        by_cases hk : "README.md" = k
        · right
          rw [if_pos hk] at hv
          injection hv with h
          exact ⟨hk.symm, h⟩
        · left
          rwa [if_neg hk] at hv

/-- The archive directory used by the C8 witness: a `.copilot` tree with
one agent file. -/
def srcAgent : SrcDir :=
  { instrFile := none, copilot := some [("agent", "1")], readme := none }

/-- The installer state used by the C8 witness: the target already has a
`.copilot` with a stale entry, and the temporary area holds the
extracted archive. -/
def stC8 : St :=
  { fs := { fsMark with copilot := some [("stale", "0")] },
    temp := some { dirs := [srcAgent] },
    backupDir := none, cleanupCalled := false, rollbackCalled := false }

/-- C8 witness: concrete old `.copilot` with entry `"stale"`, archive
`.copilot` with entry `"agent"`: after a successful `install_files`, the
result contains only archive entries; `"stale"` is gone. -/
theorem C8_remove_then_copy_witness :
    (stC8.temp = some { dirs := [srcAgent] } ∧
      srcAgent.copilot = some [("agent", "1")] ∧
      stC8.fs.copilot = some [("stale", "0")] ∧
      (install_files noFaults stC8).1 = true) ∧
    ∃ dNew,
      (install_files noFaults stC8).2.fs.copilot = some dNew ∧
      ∀ k v, findEntry dNew k = some v →
        findEntry [("agent", "1")] k = some v ∨
          (k = "README.md" ∧ srcAgent.readme = some v) :=
  ⟨⟨by decide, by decide, by decide, by decide⟩,
    C8_remove_then_copy noFaults stC8 srcAgent [] [("agent", "1")] [("stale", "0")]
      (by decide) (by decide) (by decide) (by decide)⟩

/-- C10 counterexample: the top-level directory of the archive has neither
the marker file nor `.copilot`, but does have a `README.md`.  The run
exits 0, yet something of the bundle was written: the hidden `.copilot`
directory is created in the target, containing the readme — not
"nothing". -/
theorem C10_counterexample :
    (runMain cfgGhNoB noFaults "T"
      [{ instrFile := none, copilot := none, readme := some "docs" }] fsEmpty).1 = 0 ∧
    fsEmpty.copilot = none ∧
    (runMain cfgGhNoB noFaults "T"
      [{ instrFile := none, copilot := none, readme := some "docs" }] fsEmpty).2.fs.copilot =
      some [("README.md", "docs")] := by
  refine ⟨by decide, by decide, by decide⟩

/-- C10 amended: when the extracted top-level directory lacks both the
marker file and `.copilot`, `install_files` still succeeds (warnings
only) and the run exits 0; the marker file is untouched, and the target
`.copilot` is untouched when the archive also lacks a top-level
`README.md` — but when a `README.md` is present it is copied to
`.copilot/README.md`, creating the hidden directory if needed, so the
run does write part of the layout of the bundle in that case. -/
theorem C10_amended (cfg : Config) (f : Faults) (ts : String) (fs : FS)
    (src : SrcDir) (rest : List SrcDir)
    (hni : src.instrFile = none) (hnc : src.copilot = none)
    (hv : validate_target fs = true)
    (hc : check_existing_installation cfg fs = true)
    (hB : (create_backup cfg f ts (initSt fs)).1 = true)
    (hdl : dlFails cfg f = false)
    (hrm : f.instReadmeMkdir = false) (hrc : f.instReadmeCopy = false) :
    (runMain cfg f ts (src :: rest) fs).1 = 0 ∧
    (runMain cfg f ts (src :: rest) fs).2.fs.marker = fs.marker ∧
    (src.readme = none → (runMain cfg f ts (src :: rest) fs).2.fs.copilot = fs.copilot) ∧
    (∀ r, src.readme = some r →
      (runMain cfg f ts (src :: rest) fs).2.fs.copilot =
        some (setEntry (fs.copilot.getD []) "README.md" r)) := by
  have hBf := create_backup_frame cfg f ts (initSt fs)
  rcases hBe : create_backup cfg f ts (initSt fs) with ⟨okB, stB⟩
  rw [hBe] at hB hBf
  simp only [initSt_fs] at hBf
  simp only at hB
  subst hB
  have hDf := download_fs cfg f (src :: rest) stB
  have hDok := download_ok_iff cfg f (src :: rest) stB
  have hDt := download_ok_temp cfg f (src :: rest) stB hdl
  rcases hDe : download_from_github cfg f (src :: rest) stB with ⟨okD, stD⟩
  rw [hDe] at hDf hDok hDt
  simp only [hdl, Bool.not_false] at hDok
  subst hDok
  simp only at hDf hDt
  have hIeq : install_files f stD = installReadmeStep f src stD := by
    unfold install_files installMarkerStep installCopilotStep
    simp [hDt, hni, hnc]
  have hmc : stD.fs.marker = fs.marker := by rw [hDf.1, hBf.1]
  have hcc : stD.fs.copilot = fs.copilot := by rw [hDf.1, hBf.2.1]
  cases hre : src.readme with
  | none =>
    have h3 : installReadmeStep f src stD = (true, stD) := by
      unfold installReadmeStep
      rw [hre]
    have hrun : runMain cfg f ts (src :: rest) fs = (0, cleanup f stD) := by
      unfold runMain install
      simp [initSt_fs, hv, hc, hBe, hDe, hIeq, h3]
    rw [hrun]
    have hclf := cleanup_props f stD
    refine ⟨rfl, ?_, fun _ => ?_, fun r hr => absurd hr (by simp)⟩
    · rw [hclf.1, hmc]
    · rw [hclf.1, hcc]
  | some r =>
    have h3 : installReadmeStep f src stD = (true, { stD with fs := { stD.fs with copilot := some (setEntry (stD.fs.copilot.getD []) "README.md" r) } }) := by
      unfold installReadmeStep
      rw [hre]
      simp [hrm, hrc]
    have hrun : runMain cfg f ts (src :: rest) fs = (0, cleanup f { stD with fs := { stD.fs with copilot := some (setEntry (stD.fs.copilot.getD []) "README.md" r) } }) := by
      unfold runMain install
      simp [initSt_fs, hv, hc, hBe, hDe, hIeq, h3]
    rw [hrun]
    have hclf := cleanup_props f { stD with fs := { stD.fs with copilot := some (setEntry (stD.fs.copilot.getD []) "README.md" r) } }
    refine ⟨rfl, ?_, fun h => absurd h (by simp), fun r1 hr1 => ?_⟩
    · rw [hclf.1, hmc]
    · obtain rfl : r = r1 := by injection hr1
      rw [hclf.1]
      simp [hcc]

/-- C10 amended witness: the run of the counterexample, through the amended
theorem: exit 0, marker untouched, `.copilot` now holds the readme. -/
theorem C10_amended_witness :
    (({ instrFile := none, copilot := none, readme := some "docs" } : SrcDir).instrFile =
        none ∧
      dlFails cfgGhNoB noFaults = false) ∧
    (runMain cfgGhNoB noFaults "T"
      [{ instrFile := none, copilot := none, readme := some "docs" }] fsEmpty).1 = 0 ∧
    (runMain cfgGhNoB noFaults "T"
      [{ instrFile := none, copilot := none, readme := some "docs" }] fsEmpty).2.fs.marker =
      fsEmpty.marker ∧
    (runMain cfgGhNoB noFaults "T"
      [{ instrFile := none, copilot := none, readme := some "docs" }] fsEmpty).2.fs.copilot =
      some (setEntry (fsEmpty.copilot.getD []) "README.md" "docs") :=
  have h := C10_amended cfgGhNoB noFaults "T" fsEmpty
    { instrFile := none, copilot := none, readme := some "docs" } []
    (by decide) (by decide) (by decide) (by decide) (by decide) (by decide)
    (by decide) (by decide)
  ⟨⟨by decide, by decide⟩, h.1, h.2.1, h.2.2.2 "docs" (by decide)⟩

end Installer
